import Mathlib

/-!
Verification of the FLUQ Alpha 1.0 randomness pipeline.

Shallow embedding of the JavaScript sources:
  src/index.js            (round orchestrator `runRound`)
  src/utils/hash.js       (sha256 helper; the module exports sha256,
                           blake2b, keccak256, hashAll and nothing else)
  src/mixer/mixRandomness.js
  src/detector/cheatDetector.js
  src/scoring/uniquenessScore.js
  src/token/rewardEngine.js

Machine/JS-number conventions used throughout:
  bytes are `Nat` values < 256, buffers are `List Nat`;
  exact JS number arithmetic is modelled with rationals where the source
  only performs exact double operations (integer counts, halving,
  percentages), and with reals where the source uses Math.log2/Math.sqrt;
  fallible functions return `Except String`.
-/

namespace FLUQ

/-- Lowercase hexadecimal digit for a value below 16, as produced by
Buffer.toString with the hex encoding. -/
def hexDigitChar (n : Nat) : Char :=
  if n < 10 then Char.ofNat (48 + n) else Char.ofNat (97 + (n - 10))

/-- Two lowercase hex characters of one byte. -/
def byteHexChars (b : Nat) : List Char :=
  [hexDigitChar (b / 16), hexDigitChar (b % 16)]

/-- Lowercase hex string of a byte buffer (Buffer.toString hex). -/
def bytesToHex (l : List Nat) : String :=
  String.mk (l.flatMap byteHexChars)

/-- Is the character one of 0-9, a-f, A-F (the character class of the
hex regular expressions in the sources). -/
def isHexChar (c : Char) : Bool :=
  (48 ≤ c.toNat && c.toNat ≤ 57) ||
  (97 ≤ c.toNat && c.toNat ≤ 102) ||
  (65 ≤ c.toNat && c.toNat ≤ 70)

/-- Numeric value of a hex character. -/
def hexCharVal (c : Char) : Nat :=
  let n := c.toNat
  if 48 ≤ n && n ≤ 57 then n - 48
  else if 97 ≤ n && n ≤ 102 then n - 87
  else if 65 ≤ n && n ≤ 70 then n - 55
  else 0

/-- Decode consecutive character pairs of an even-length hex string
(Buffer.from with the hex encoding, applied only after the even-length
hex test succeeded). -/
def hexPairsDecode : List Char → List Nat
  | a :: b :: rest => (hexCharVal a * 16 + hexCharVal b) :: hexPairsDecode rest
  | _ => []

/-- UTF-8 encoding of one character (Buffer.from with the utf8 encoding). -/
def charUtf8 (c : Char) : List Nat :=
  let n := c.toNat
  if n < 128 then [n]
  else if n < 2048 then [192 + n / 64, 128 + n % 64]
  else if n < 65536 then [224 + n / 4096, 128 + (n / 64) % 64, 128 + n % 64]
  else [240 + n / 262144, 128 + (n / 4096) % 64, 128 + (n / 64) % 64, 128 + n % 64]

/-- UTF-8 bytes of a string. -/
def strBytes (s : String) : List Nat :=
  s.data.flatMap charUtf8

/-- Split a list into consecutive chunks of the given size; the first
argument is recursion fuel (any value at least the list length works). -/
def chunkN (size : Nat) : Nat → List Nat → List (List Nat)
  | 0, _ => []
  | _ + 1, [] => []
  | fuel + 1, l => l.take size :: chunkN size fuel (l.drop size)

/-! SHA-256 (FIPS 180-4) over byte lists, with 32-bit words as `Nat`
values reduced modulo 2 to the 32. This embeds the digest computed by
the Node crypto module that hash.js and the mixer call. -/

/-- Right rotation of a 32-bit word. -/
def rotr32 (x k : Nat) : Nat :=
  ((x >>> k) ||| ((x <<< (32 - k)) % 2 ^ 32))

/-- Bitwise complement of a 32-bit word. -/
def not32 (x : Nat) : Nat := x ^^^ 0xffffffff

def shaCh (x y z : Nat) : Nat := (x &&& y) ^^^ (not32 x &&& z)

def shaMaj (x y z : Nat) : Nat := (x &&& y) ^^^ (x &&& z) ^^^ (y &&& z)

def bigSigma0 (x : Nat) : Nat := rotr32 x 2 ^^^ rotr32 x 13 ^^^ rotr32 x 22

def bigSigma1 (x : Nat) : Nat := rotr32 x 6 ^^^ rotr32 x 11 ^^^ rotr32 x 25

def smallSigma0 (x : Nat) : Nat := rotr32 x 7 ^^^ rotr32 x 18 ^^^ (x >>> 3)

def smallSigma1 (x : Nat) : Nat := rotr32 x 17 ^^^ rotr32 x 19 ^^^ (x >>> 10)

/-- The 64 SHA-256 round constants. -/
def sha256K : List Nat :=
  [1116352408, 1899447441, 3049323471, 3921009573, 961987163,
   1508970993, 2453635748, 2870763221, 3624381080, 310598401,
   607225278, 1426881987, 1925078388, 2162078206, 2614888103,
   3248222580, 3835390401, 4022224774, 264347078, 604807628,
   770255983, 1249150122, 1555081692, 1996064986, 2554220882,
   2821834349, 2952996808, 3210313671, 3336571891, 3584528711,
   113926993, 338241895, 666307205, 773529912, 1294757372,
   1396182291, 1695183700, 1986661051, 2177026350, 2456956037,
   2730485921, 2820302411, 3259730800, 3345764771, 3516065817,
   3600352804, 4094571909, 275423344, 430227734, 506948616,
   659060556, 883997877, 958139571, 1322822218, 1537002063,
   1747873779, 1955562222, 2024104815, 2227730452, 2361852424,
   2428436474, 2756734187, 3204031479, 3329325298]

/-- The eight-word SHA-256 working state. -/
structure Sha256State where
  a : Nat
  b : Nat
  c : Nat
  d : Nat
  e : Nat
  f : Nat
  g : Nat
  h : Nat
deriving DecidableEq

/-- The SHA-256 initial hash value. -/
def sha256H0 : Sha256State :=
  ⟨1779033703, 3144134277, 1013904242, 2773480762,
   1359893119, 2600822924, 528734635, 1541459225⟩

/-- Big-endian eight-byte encoding of the message bit length. -/
def be64 (n : Nat) : List Nat :=
  [(n >>> 56) % 256, (n >>> 48) % 256, (n >>> 40) % 256, (n >>> 32) % 256,
   (n >>> 24) % 256, (n >>> 16) % 256, (n >>> 8) % 256, n % 256]

/-- SHA-256 padding: 0x80, zeros to 56 mod 64, then the 64-bit bit length. -/
def sha256Pad (msg : List Nat) : List Nat :=
  msg ++ [0x80] ++
    List.replicate ((56 + 64 - (msg.length + 1) % 64) % 64) 0 ++
    be64 (8 * msg.length)

/-- Parse a 64-byte block into sixteen big-endian 32-bit words. -/
def blockWords : List Nat → List Nat
  | a :: b :: c :: d :: rest =>
      ((a <<< 24) ||| (b <<< 16) ||| (c <<< 8) ||| d) :: blockWords rest
  | _ => []

/-- One message-schedule extension step: append word t from words
t-2, t-7, t-15, t-16. -/
def scheduleStep (w : List Nat) : List Nat :=
  w ++ [(smallSigma1 (w.getD (w.length - 2) 0) + w.getD (w.length - 7) 0 +
         smallSigma0 (w.getD (w.length - 15) 0) + w.getD (w.length - 16) 0) % 2 ^ 32]

def scheduleIter : Nat → List Nat → List Nat
  | 0, w => w
  | n + 1, w => scheduleIter n (scheduleStep w)

/-- One SHA-256 compression round with round constant ki and schedule
word wi. -/
def sha256Round (s : Sha256State) (ki wi : Nat) : Sha256State :=
  let t1 := (s.h + bigSigma1 s.e + shaCh s.e s.f s.g + ki + wi) % 2 ^ 32
  let t2 := (bigSigma0 s.a + shaMaj s.a s.b s.c) % 2 ^ 32
  ⟨(t1 + t2) % 2 ^ 32, s.a, s.b, s.c, (s.d + t1) % 2 ^ 32, s.e, s.f, s.g⟩

/-- Compress one 64-byte block into the running state. -/
def sha256Compress (st : Sha256State) (block : List Nat) : Sha256State :=
  let w := scheduleIter 48 (blockWords block)
  let f := (sha256K.zip w).foldl (fun s kw => sha256Round s kw.1 kw.2) st
  ⟨(st.a + f.a) % 2 ^ 32, (st.b + f.b) % 2 ^ 32, (st.c + f.c) % 2 ^ 32,
   (st.d + f.d) % 2 ^ 32, (st.e + f.e) % 2 ^ 32, (st.f + f.f) % 2 ^ 32,
   (st.g + f.g) % 2 ^ 32, (st.h + f.h) % 2 ^ 32⟩

/-- Big-endian four-byte encoding of a 32-bit word. -/
def be32 (n : Nat) : List Nat :=
  [(n >>> 24) % 256, (n >>> 16) % 256, (n >>> 8) % 256, n % 256]

/-- The 32-byte SHA-256 digest of a byte list. -/
def sha256Bytes (msg : List Nat) : List Nat :=
  let padded := sha256Pad msg
  let st := (chunkN 64 padded.length padded).foldl sha256Compress sha256H0
  be32 st.a ++ be32 st.b ++ be32 st.c ++ be32 st.d ++
  be32 st.e ++ be32 st.f ++ be32 st.g ++ be32 st.h

/-- Lowercase hex SHA-256 digest of a byte list, as crypto.createHash
followed by digest hex returns it. -/
def sha256HexOfBytes (msg : List Nat) : String :=
  bytesToHex (sha256Bytes msg)

/-- hash.js sha256 applied to a string argument: the string is converted
to its UTF-8 bytes and hashed, yielding a lowercase hex digest. -/
def sha256Str (s : String) : String :=
  sha256HexOfBytes (strBytes s)

/-! rewardEngine.js (src/token/rewardEngine.js). -/

namespace Reward

/-- The object computeReward returns. JS Math.round clamps the score to
an integer, so the stored score field is an integer. -/
structure RewardResult where
  score : Int
  tokens : Nat
  category : String
  reason : String
deriving DecidableEq

/-- JS Math.round: floor of x plus one half (rounds half toward
positive infinity). -/
def jsRound (q : ℚ) : Int :=
  Int.floor (q + 1 / 2)

/-- computeReward on an actual (non-NaN) JS number: clamp
Math.round(score) into the integer range 0..100, then award by bracket. -/
def computeReward (score : ℚ) : RewardResult :=
  let s : Int := max 0 (min 100 (jsRound score))
  if s > 80 then
    ⟨s, 5, "High Entropy", "Score above 80: highest reward bracket"⟩
  else if s ≥ 50 then
    ⟨s, 3, "Medium Entropy", "Score between 50 and 80: medium reward bracket"⟩
  else
    ⟨s, 1, "Low Entropy", "Score below 50: baseline reward"⟩

end Reward

/-- JavaScript values as they reach the reward-engine boundaries. A
numeric value is either an actual rational number or NaN (for which the
JS typeof is still number); balances-shaped plain objects carry their
string-keyed numeric entries in insertion order. -/
inductive JSVal where
  | num (q : ℚ)
  | nan
  | str (s : String)
  | boolV (b : Bool)
  | nullV
  | undef
  | obj (m : List (String × ℚ))
deriving DecidableEq

namespace Reward

/-- computeReward including its input guard: typeof score must be
number and the value must not be NaN, otherwise a TypeError is thrown. -/
def computeRewardJS : JSVal → Except String RewardResult
  | .num q => .ok (computeReward q)
  | _ => .error "computeReward: score must be a valid number"

/-- Replace the first entry with the given key, preserving object key
order; a fresh key is appended at the end (JS property update on the
copied object). -/
def setKey : List (String × ℚ) → String → ℚ → List (String × ℚ)
  | [], k, v => [(k, v)]
  | (k0, v0) :: rest, k, v =>
      if k0 = k then (k0, v) :: rest else (k0, v0) :: setKey rest k v

/-- The object awardTokensToBalance returns. -/
structure AwardResult where
  updatedBalances : List (String × ℚ)
  awarded : Nat
  meta : RewardResult
deriving DecidableEq

/-- awardTokensToBalance. The balances parameter has the JS default of
an empty object, taken when the argument is undefined; typeof checks
reject a non-string or empty minerId and a non-object or null balances
value. The balances object is copied before the update. -/
def awardTokensToBalance (minerId balances score : JSVal) :
    Except String AwardResult :=
  let balances : JSVal := match balances with
    | .undef => .obj []
    | b => b
  match minerId with
  | .str mid =>
      if mid.length = 0 then
        .error "awardTokensToBalance: minerId must be a non-empty string"
      else
        match balances with
        | .obj m =>
            match computeRewardJS score with
            | .error e => .error e
            | .ok r =>
                let awarded := r.tokens
                let prev : ℚ := match List.lookup mid m with
                  | some q => q
                  | none => 0
                .ok ⟨setKey m mid (prev + awarded), awarded, r⟩
        | _ => .error "awardTokensToBalance: balances must be an object (or omitted)"
  | _ => .error "awardTokensToBalance: minerId must be a non-empty string"

end Reward

/-! mixRandomness.js (src/mixer/mixRandomness.js). -/

namespace Mixer

/-- An element of the inputs array: a Buffer, a string, or any other
value, the last represented by its JSON serialization text (the source
falls back to Buffer.from of JSON.stringify of the value). -/
inductive MixInput where
  | buf (b : List Nat)
  | str (s : String)
  | jsonOther (s : String)
deriving DecidableEq

/-- Does a string pass the mixer hex test: nonempty, every character in
the hex character class, and even length. -/
def looksHex (s : String) : Bool :=
  s.length != 0 && s.data.all isHexChar && s.length % 2 = 0

/-- The mixer toBuffer on a string: parse as hex when the hex test
passes, otherwise take the UTF-8 bytes. -/
def toBufferStr (s : String) : List Nat :=
  if looksHex s then hexPairsDecode s.data else strBytes s

/-- The mixer toBuffer. -/
def toBuffer : MixInput → List Nat
  | .buf b => b
  | .str s => toBufferStr s
  | .jsonOther s => strBytes s

/-- Swap two positions of a list; positions are in range at every call
site of the Fisher-Yates loop, and an out-of-range position leaves the
list unchanged. -/
def listSwap {α : Type} (l : List α) (i j : Nat) : List α :=
  if hi : i < l.length then
    if hj : j < l.length then
      (l.set i (l.get ⟨j, hj⟩)).set j (l.get ⟨i, hi⟩)
    else l
  else l

/-- The Fisher-Yates loop of secureShuffle, counting the index down to
one; the draw function gives the value crypto.randomInt returned for
each index, a uniform integer between zero and that index inclusive. -/
def fyAux {α : Type} (draw : Nat → Nat) : List α → Nat → List α
  | arr, 0 => arr
  | arr, i + 1 => fyAux draw (listSwap arr (i + 1) (draw (i + 1))) i

/-- secureShuffle: copy the array and run the Fisher-Yates loop from
the last index down. -/
def secureShuffle {α : Type} (draw : Nat → Nat) (buffers : List α) : List α :=
  fyAux draw buffers (buffers.length - 1)

/-- The opts object of mixRandomness. A field is some value exactly
when the source treats it as present: salt and prevHash when truthy,
roundId when neither undefined nor null (carried here already coerced
by JS String). -/
structure MixOpts where
  salt : Option MixInput
  roundId : Option String
  prevHash : Option MixInput
deriving DecidableEq

/-- The empty opts object, the default parameter value. -/
def defaultOpts : MixOpts := ⟨none, none, none⟩

/-- The object mixRandomness resolves with. -/
structure MixResult where
  finalHash : String
  shuffledHex : List String
  concatenatedHex : String
  preImageHex : String
deriving DecidableEq

/-- The salt part of the pre-image: toBuffer of the salt when present,
else an empty buffer. -/
def saltBuf (opts : MixOpts) : List Nat :=
  match opts.salt with
  | some s => toBuffer s
  | none => []

/-- The round-id part of the pre-image: toBuffer of String(roundId)
when present, else an empty buffer. -/
def roundBuf (opts : MixOpts) : List Nat :=
  match opts.roundId with
  | some r => toBufferStr r
  | none => []

/-- The previous-hash part of the pre-image. -/
def prevBuf (opts : MixOpts) : List Nat :=
  match opts.prevHash with
  | some p => toBuffer p
  | none => []

/-- The metadata prefix of the pre-image: salt, round id, previous
hash, in this order, each pushed only when its buffer is nonempty. -/
def metaParts (opts : MixOpts) : List Nat :=
  (if (saltBuf opts).length > 0 then saltBuf opts else []) ++
  (if (roundBuf opts).length > 0 then roundBuf opts else []) ++
  (if (prevBuf opts).length > 0 then prevBuf opts else [])

/-- The body of mixRandomness once the array guard has passed: convert
the inputs to buffers, shuffle them, and concatenate metadata followed
by the shuffled pieces; the final hash is the SHA-256 of that
concatenation. -/
def mixCore (inputs : List MixInput) (opts : MixOpts) (draw : Nat → Nat) :
    MixResult :=
  let buffers := inputs.map toBuffer
  let shuffled := secureShuffle draw buffers
  let shuffledHex := shuffled.map bytesToHex
  let concatenated := metaParts opts ++ shuffled.flatten
  ⟨sha256HexOfBytes concatenated, shuffledHex,
   bytesToHex concatenated, bytesToHex concatenated⟩

/-- The inputs argument of mixRandomness: Array.isArray splits the
JavaScript value space into arrays and everything else. -/
inductive MixInputsVal where
  | arr (l : List MixInput)
  | notArray (v : JSVal)

/-- mixRandomness: throw for a non-array inputs value, otherwise run
the mixing pipeline. -/
def mixRandomness (inputs : MixInputsVal) (opts : MixOpts)
    (draw : Nat → Nat) : Except String MixResult :=
  match inputs with
  | .arr l => .ok (mixCore l opts draw)
  | .notArray _ => .error "inputs must be an array of Buffers or strings"

end Mixer

/-! cheatDetector.js (src/detector/cheatDetector.js). -/

namespace Detector

/-- The object detectCheating returns. -/
structure DetectResult where
  cheated : Bool
  reason : Option String
deriving DecidableEq

/-- Shannon entropy of the byte-frequency distribution, in bits per
byte: the freq table is built over the buffer and each present value
contributes minus p times log2 p. An empty buffer has an empty table
and entropy zero. -/
noncomputable def calculateEntropy (buffer : List Nat) : ℝ :=
  -((buffer.dedup.map (fun v =>
      let p : ℝ := (buffer.count v : ℝ) / (buffer.length : ℝ)
      p * Real.logb 2 p)).sum)

/-- bufferSimilarity: percentage of positions with identical byte
value over the shorter length. The JS division 0/0 for two empty
buffers yields NaN, and NaN fails the later greater-than test exactly
as the rational 0 here does. -/
def bufferSimilarity (buf1 buf2 : List Nat) : ℚ :=
  let len := min buf1.length buf2.length
  let same := ((buf1.zip buf2).filter (fun ab => ab.1 = ab.2)).length
  ((same : ℚ) / (len : ℚ)) * 100

/-- The repetition loop of detectCheating: walk the buffer keeping a
running frequency table and report a hit as soon as one running count
exceeds half the full buffer length. -/
def repLoop (threshold : ℚ) (counts : Nat → Nat) : List Nat → Bool
  | [] => false
  | b :: rest =>
      let c := counts b + 1
      if (c : ℚ) > threshold then true
      else repLoop threshold (fun x => if x = b then c else counts x) rest

/-- Did the repetition check of detectCheating fire on this buffer. -/
def repTriggered (cur : List Nat) : Bool :=
  repLoop ((cur.length : ℚ) * (1 / 2)) (fun _ => 0) cur

/-- The reason string of the repetition branch. -/
def repeatedMsg : String := "Too many repeated values (low randomness)"

/-- JS Number toFixed with two digits on a rational (used for the
similarity percentage in the reason string). -/
def ratToFixed2 (q : ℚ) : String :=
  let n : Int := Int.floor (q * 100 + 1 / 2)
  toString (n / 100) ++ "." ++ toString (n % 100 / 10) ++ toString (n % 10)

/-- JS Number toFixed with two digits on a real (used for the entropy
value in the reason string). -/
noncomputable def realToFixed2 (x : ℝ) : String :=
  let n : Int := Int.floor (x * 100 + 1 / 2)
  toString (n / 100) ++ "." ++ toString (n % 100 / 10) ++ toString (n % 10)

/-- The reason string of the similarity branch, with the percentage
interpolated at two decimal places. -/
def similarMsg (sim : ℚ) : String :=
  "Randomness is suspiciously similar to previous round (" ++
    ratToFixed2 sim ++ "%)"

/-- The reason string of the entropy branch, with the entropy value
interpolated at two decimal places. -/
noncomputable def entropyLowMsg (e : ℝ) : String :=
  "Entropy too low (" ++ realToFixed2 e ++ ")"

open Classical in
/-- The entropy stage of detectCheating, reached when neither the
repetition nor the similarity branch returned. -/
noncomputable def entropyStage (cur : List Nat) : DetectResult :=
  if calculateEntropy cur < 4 then
    ⟨true, some (entropyLowMsg (calculateEntropy cur))⟩
  else
    ⟨false, none⟩

/-- detectCheating: repetition check first, then (only when a previous
buffer was passed; null maps to none) the similarity check, then the
entropy floor; the first firing check returns. -/
noncomputable def detectCheating (currentRandomness : List Nat)
    (previousRandomness : Option (List Nat)) : DetectResult :=
  if repTriggered currentRandomness then
    ⟨true, some repeatedMsg⟩
  else
    match previousRandomness with
    | some prev =>
        if bufferSimilarity currentRandomness prev > 85 then
          ⟨true, some (similarMsg (bufferSimilarity currentRandomness prev))⟩
        else entropyStage currentRandomness
    | none => entropyStage currentRandomness

end Detector

/-! uniquenessScore.js (src/scoring/uniquenessScore.js). -/

namespace Scoring

/-- A contribution as accepted by the scoring toBuffer: a Buffer, a
string (taken as UTF-8), a byte array (values reduced modulo 256 as
Buffer.from does), or a value of any other type. -/
inductive SContribution where
  | buf (b : List Nat)
  | str (s : String)
  | byteList (l : List Nat)
  | invalid
deriving DecidableEq

/-- The scoring toBuffer; any other type throws a TypeError. -/
def toBufferS : SContribution → Except String (List Nat)
  | .buf b => .ok b
  | .str s => .ok (strBytes s)
  | .byteList l => .ok (l.map (· % 256))
  | .invalid => .error "Input must be Buffer, string, or byte array"

/-- The allRandomness argument: an array is copied, any other value is
wrapped in a one-element array; null and undefined entries (none) are
filtered out afterwards. -/
inductive UInput where
  | arrIn (l : List (Option SContribution))
  | singleIn (x : Option SContribution)

/-- Normalization at the top of computeUniquenessScore: wrap a
non-array into a singleton array and drop null and undefined entries. -/
def normInputs : UInput → List SContribution
  | .arrIn l => l.reduceOption
  | .singleIn x => x.toList

/-- Shannon entropy in bits per byte with the explicit empty-buffer
guard of the scoring module. -/
noncomputable def shannonEntropyBits (buf : List Nat) : ℝ :=
  if buf.length = 0 then 0
  else
    -((buf.dedup.map (fun v =>
        let p : ℝ := (buf.count v : ℝ) / (buf.length : ℝ)
        p * Real.logb 2 p)).sum)

/-- Population count of one byte. -/
def popcnt8 (x : Nat) : Nat :=
  (x &&& 1) + ((x >>> 1) &&& 1) + ((x >>> 2) &&& 1) + ((x >>> 3) &&& 1) +
  ((x >>> 4) &&& 1) + ((x >>> 5) &&& 1) + ((x >>> 6) &&& 1) + ((x >>> 7) &&& 1)

/-- normalizedBitSimilarity: one minus the bitwise Hamming distance
rate over the shorter length; zero when a buffer is empty. -/
def normalizedBitSimilarity (bufA bufB : List Nat) : ℚ :=
  let len := min bufA.length bufB.length
  if len = 0 then 0
  else
    let diffBits := ((bufA.zip bufB).map (fun ab => popcnt8 (ab.1 ^^^ ab.2))).sum
    1 - (diffBits : ℚ) / ((len : ℚ) * 8)

/-- Per-block Shannon entropies over fixed-size slices. -/
noncomputable def blockEntropies (buf : List Nat) (blockSize : Nat) : List ℝ :=
  (chunkN blockSize buf.length buf).map shannonEntropyBits

/-- Mean of a list of reals, zero for the empty list. -/
noncomputable def meanR (l : List ℝ) : ℝ :=
  if l.length = 0 then 0 else l.sum / (l.length : ℝ)

/-- Population standard deviation, zero for the empty list. -/
noncomputable def stddevR (l : List ℝ) : ℝ :=
  if l.length = 0 then 0
  else Real.sqrt (((l.map (fun x => (x - meanR l) ^ 2)).sum) / (l.length : ℝ))

/-- Per-metric weight overrides: a some field overrides the default
weight for that metric (Object.assign over the defaults). -/
structure WeightsOverride where
  entropy : Option ℝ
  nonRepeat : Option ℝ
  amount : Option ℝ
  variation : Option ℝ

/-- The options object of computeUniquenessScore. -/
structure UOptions where
  previousRounds : Option (List SContribution)
  weights : WeightsOverride
  maxBits : Option ℚ

/-- The empty options object, the default parameter value. -/
def defaultUOptions : UOptions := ⟨none, ⟨none, none, none, none⟩, none⟩

/-- The four sub-scores of the returned breakdown. -/
structure ScoreBreakdown where
  entropyNorm : ℝ
  nonRepeatNorm : ℝ
  amountNorm : ℝ
  variationNorm : ℝ

/-- The object computeUniquenessScore returns. -/
structure ScoreResult where
  score : Int
  category : String
  breakdown : ScoreBreakdown

/-- JS Number toFixed with four digits, re-read as a number. -/
noncomputable def round4 (x : ℝ) : ℝ :=
  (Int.floor (x * 10000 + 1 / 2) : ℝ) / 10000

/-- JS Math.round on a real. -/
noncomputable def jsRoundR (x : ℝ) : Int :=
  Int.floor (x + 1 / 2)

open Classical in
/-- computeUniquenessScore. The empty normalized input set returns the
all-zero result before any buffer conversion; otherwise the four
sub-scores are combined with the (possibly overridden) weights, clamped
to the unit interval, scaled by 100 and rounded. -/
noncomputable def computeUniquenessScore (allRandomness : UInput)
    (options : UOptions) : Except String ScoreResult :=
  let inputs := normInputs allRandomness
  if inputs.length = 0 then
    .ok ⟨0, "Low", ⟨0, 0, 0, 0⟩⟩
  else
    match inputs.mapM toBufferS with
    | .error e => .error e
    | .ok bufs =>
        let buf := bufs.flatten
        let maxBits : ℚ := match options.maxBits with
          | some m => if m = 0 then 2048 else m
          | none => 2048
        let entropyPerByte := shannonEntropyBits buf
        let entropyNorm : ℝ := min (entropyPerByte / 8) 1
        let totalBits : ℚ := (buf.length : ℚ) * 8
        let amountNorm : ℝ := min ((totalBits : ℝ) / (maxBits : ℝ)) 1
        let blockEnt := blockEntropies buf 32
        let meanBlockEnt := meanR blockEnt
        let sdBlockEnt := stddevR blockEnt
        let cov : ℝ :=
          if meanBlockEnt > 0.0001 then sdBlockEnt / meanBlockEnt else 0
        let variationNorm : ℝ := min (cov / 0.5) 1
        let previousRounds := options.previousRounds.getD []
        let nonRepeatNorm : ℝ :=
          if previousRounds.length > 0 then
            let prevBufs := previousRounds.filterMap
              (fun prev => (toBufferS prev).toOption)
            let maxSim : ℚ := (prevBufs.map
              (fun pb => normalizedBitSimilarity buf pb)).foldl max 0
            max 0 (1 - (maxSim : ℝ))
          else 1
        let wEntropy := (options.weights.entropy).getD 0.4
        let wNonRepeat := (options.weights.nonRepeat).getD 0.25
        let wAmount := (options.weights.amount).getD 0.2
        let wVariation := (options.weights.variation).getD 0.15
        let combined :=
          entropyNorm * wEntropy + nonRepeatNorm * wNonRepeat +
          amountNorm * wAmount + variationNorm * wVariation
        let scoreFloat := max 0 (min 1 combined)
        let score := jsRoundR (scoreFloat * 100)
        let category :=
          if score ≥ 85 then "High Entropy"
          else if score ≥ 65 then "Moderate-High"
          else if score ≥ 40 then "Moderate"
          else "Low"
        .ok ⟨score, category,
          ⟨round4 entropyNorm, round4 nonRepeatNorm,
           round4 amountNorm, round4 variationNorm⟩⟩

end Scoring

/-! index.js (src/index.js): commit building, commit verification, and
the round orchestrator. -/

namespace Index

/-- bufferToHex applied to a Buffer argument. -/
def bufferToHex (buf : List Nat) : String := bytesToHex buf

/-- The per-collector normalization of the collected hex text:
padEnd(64, zero) followed by slice(0, 64). -/
def norm64 (s : String) : String :=
  (s ++ String.mk (List.replicate (64 - s.length) '0')).take 64

/-- The commitment of index.js: sha256 of the string concatenation of
the entropy digest, the secret, and the round id (JS + on strings,
grouping from the left). -/
def commitOf (E s roundId : String) : String :=
  sha256Str (E ++ s ++ roundId)

/-- The local reveal verification of index.js: recompute the sha256 of
the disclosed values and compare with the stored commitment. -/
def verifyCommit (commit E s roundId : String) : Bool :=
  sha256Str (E ++ s ++ roundId) == commit

/-- The named exports of utils/hash.js that index.js uses as hashUtils.
The module exports sha256, blake2b, keccak256 and hashAll; it has no
sha512 export, so the sha512 member is none (the property access in JS
gives undefined). -/
structure HashUtilsExports where
  sha256 : String → String
  sha512 : Option (String → String)

/-- The hashUtils module as actually exported by src/utils/hash.js. -/
def hashUtilsExports : HashUtilsExports := ⟨sha256Str, none⟩

/-- The inputs array index.js builds for the mixer call: the previous
round hash and the round id are placed in the array itself, in front of
the reveal digests, and no opts argument is given. -/
def orchestratorMixInputs (prevRoundHash roundId : String)
    (Elist : List String) : List Mixer.MixInput :=
  ([prevRoundHash, roundId] ++ Elist).map Mixer.MixInput.str

/-- The round record of index.js, with the reveals reduced to node id
and commitment pairs. The wall-clock timestamp field is outside the
embedding. -/
structure RoundRecord where
  round_id : String
  prev_root_hash : String
  reveals : List (String × String)
  R_round : String
  awarded : Nat

/-- runRound with the hashUtils module as a parameter, over the four
collected buffers, the round metadata, and the local secret. An ok none
outcome is the bare return of the failed-verification branch; an error
is a thrown TypeError. After the commit check the source calls the
async mixRandomness without awaiting it, so roundSeed is a pending
Promise and the template literal of the next log line calls
roundSeed.slice, which does not exist on a Promise: even with a sha512
export present, the round throws there and no record is reached. -/
def runRoundWith (hx : HashUtilsExports)
    (mouseBuf keyboardBuf cpuBuf cryptoBuf : List Nat)
    (roundId prevRoundHash sSecret : String) (draw : Nat → Nat) :
    Except String (Option RoundRecord) :=
  let collectedMouse := norm64 (bufferToHex mouseBuf)
  let collectedKeyboard := norm64 (bufferToHex keyboardBuf)
  let collectedCpu := norm64 (bufferToHex cpuBuf)
  let collectedCrypto := norm64 (bufferToHex cryptoBuf)
  let concatenatedHex :=
    collectedMouse ++ collectedKeyboard ++ collectedCpu ++ collectedCrypto
  match hx.sha512 with
  | none => .error "TypeError: hashUtils.sha512 is not a function"
  | some sha512 =>
      let Ei := sha512 concatenatedHex
      let commit := hx.sha256 (Ei ++ sSecret ++ roundId)
      let recomputed := hx.sha256 (Ei ++ sSecret ++ roundId)
      if recomputed ≠ commit then
        .ok none
      else
        let Elist := [Ei]
        let _ := Mixer.mixRandomness
          (.arr (orchestratorMixInputs prevRoundHash roundId Elist))
          Mixer.defaultOpts draw
        .error "TypeError: roundSeed.slice is not a function"

/-- runRound as shipped: runRoundWith applied to the actual hashUtils
exports. -/
def runRound (mouseBuf keyboardBuf cpuBuf cryptoBuf : List Nat)
    (roundId prevRoundHash sSecret : String) (draw : Nat → Nat) :
    Except String (Option RoundRecord) :=
  runRoundWith hashUtilsExports mouseBuf keyboardBuf cpuBuf cryptoBuf
    roundId prevRoundHash sSecret draw

end Index

/-! Helper lemmas about the Fisher-Yates swap. -/

theorem cons_get_set_perm {α : Type} (t : List α) (k : Nat) (hk : k < t.length)
    (x : α) : (t.get ⟨k, hk⟩ :: t.set k x).Perm (x :: t) := by
  induction t generalizing k with
  | nil => simp at hk
  | cons y t2 ih =>
      cases k with
      | zero => exact List.Perm.swap x y t2
      | succ k =>
          have h2 : k < t2.length := by simpa using hk
          show (t2.get ⟨k, h2⟩ :: y :: t2.set k x).Perm (x :: y :: t2)
          exact ((List.Perm.swap y (t2.get ⟨k, h2⟩) (t2.set k x)).trans
            (List.Perm.cons y (ih k h2))).trans (List.Perm.swap x y t2)

theorem set_set_swap_perm {α : Type} (l : List α) (i j : Nat)
    (hi : i < l.length) (hj : j < l.length) :
    ((l.set i (l.get ⟨j, hj⟩)).set j (l.get ⟨i, hi⟩)).Perm l := by
  induction l generalizing i j with
  | nil => simp at hi
  | cons x t ih =>
      cases i with
      | zero =>
          cases j with
          | zero => simp [List.set, List.get]
          | succ k =>
              have h2 : k < t.length := by simpa using hj
              simpa [List.set, List.get] using cons_get_set_perm t k h2 x
      | succ s =>
          have hs : s < t.length := by simpa using hi
          cases j with
          | zero =>
              simpa [List.set, List.get] using cons_get_set_perm t s hs x
          | succ k =>
              have h2 : k < t.length := by simpa using hj
              simpa [List.set, List.get] using
                List.Perm.cons x (ih s k hs h2)

theorem listSwap_perm {α : Type} (l : List α) (i j : Nat) :
    (Mixer.listSwap l i j).Perm l := by
  unfold Mixer.listSwap
  split_ifs with hi hj
  · exact set_set_swap_perm l i j hi hj
  · exact List.Perm.refl l
  · exact List.Perm.refl l

theorem fyAux_perm {α : Type} (draw : Nat → Nat) (l : List α) (n : Nat) :
    (Mixer.fyAux draw l n).Perm l := by
  induction n generalizing l with
  | zero => exact List.Perm.refl l
  | succ n ih =>
      exact (ih (Mixer.listSwap l (n + 1) (draw (n + 1)))).trans
        (listSwap_perm l (n + 1) (draw (n + 1)))

theorem secureShuffle_perm {α : Type} (draw : Nat → Nat) (l : List α) :
    (Mixer.secureShuffle draw l).Perm l :=
  fyAux_perm draw l (l.length - 1)

/-- C5: for every inputs array, the shuffled buffer list whose
concatenation forms the tail of the mixer pre-image is a permutation
(equal multiset) of the normalized input buffers, no byte added,
dropped, or altered, and shuffledHex lists exactly the hex encodings
of the shuffled buffers. -/
theorem c5_shuffle_is_permutation (inputs : List Mixer.MixInput)
    (opts : Mixer.MixOpts) (draw : Nat → Nat) :
    (↑(Mixer.secureShuffle draw (inputs.map Mixer.toBuffer)) :
        Multiset (List Nat)) = ↑(inputs.map Mixer.toBuffer) ∧
    (Mixer.mixCore inputs opts draw).shuffledHex =
      (Mixer.secureShuffle draw (inputs.map Mixer.toBuffer)).map bytesToHex ∧
    (Mixer.mixCore inputs opts draw).preImageHex =
      bytesToHex (Mixer.metaParts opts ++
        (Mixer.secureShuffle draw (inputs.map Mixer.toBuffer)).flatten) :=
  ⟨Multiset.coe_eq_coe.mpr (secureShuffle_perm draw (inputs.map Mixer.toBuffer)),
   rfl, rfl⟩

/-- C2 (amended): in the mixer function itself the pre-image is the
present salt, round-id, and previous-hash buffers in this fixed
leading order followed by the concatenation of the shuffled input
buffers, only the inputs array being permuted; the orchestrator call,
however, passes the previous-round hash and round id inside the inputs
array with empty opts, so there they are shuffled together with the
contribution digests and no metadata keeps a fixed position. -/
theorem c2_preimage_layout (inputs : List Mixer.MixInput)
    (opts : Mixer.MixOpts) (draw : Nat → Nat) :
    (Mixer.mixCore inputs opts draw).preImageHex =
      bytesToHex (Mixer.metaParts opts ++
        (Mixer.secureShuffle draw (inputs.map Mixer.toBuffer)).flatten) ∧
    Mixer.metaParts opts =
      (if (Mixer.saltBuf opts).length > 0 then Mixer.saltBuf opts else []) ++
      (if (Mixer.roundBuf opts).length > 0 then Mixer.roundBuf opts else []) ++
      (if (Mixer.prevBuf opts).length > 0 then Mixer.prevBuf opts else []) ∧
    (∀ (prevRoundHash roundId : String) (Elist : List String),
      (Mixer.mixCore (Index.orchestratorMixInputs prevRoundHash roundId Elist)
          Mixer.defaultOpts draw).preImageHex =
        bytesToHex ((Mixer.secureShuffle draw
          (([prevRoundHash, roundId] ++ Elist).map Mixer.toBufferStr)).flatten)) := by
  refine ⟨rfl, rfl, ?_⟩
  intro prevRoundHash roundId Elist
  have hcomp : Mixer.toBuffer ∘ Mixer.MixInput.str = Mixer.toBufferStr := rfl
  simp [Mixer.mixCore, Mixer.metaParts, Mixer.saltBuf, Mixer.roundBuf,
    Mixer.prevBuf, Mixer.defaultOpts, Index.orchestratorMixInputs,
    List.map_map, hcomp, Mixer.toBuffer]

/-- C2 counterexample: in the orchestrator call pattern (previous-round
hash and round id passed as the first two array elements, empty opts)
there is a Fisher-Yates draw under which the pre-image does not equal
round-id bytes, then previous-hash bytes, then the (single) shuffled
contribution, so the metadata does not occupy fixed leading positions
in the orchestrator use of the mixer. -/
theorem c2_counterexample :
    (Mixer.mixCore (Index.orchestratorMixInputs "00" "r-1" ["aa"])
        Mixer.defaultOpts (fun _ => 0)).preImageHex ≠
      bytesToHex (Mixer.toBufferStr "r-1" ++ Mixer.toBufferStr "00" ++
        Mixer.toBufferStr "aa") := by
  decide

/-- C3: computeReward maps the score to an integer clamped into 0..100
(Math.round then clamp) and awards 5 tokens above 80, 3 tokens from 50
to 80 inclusive, and 1 token below 50; with the five concrete values
of the specification. -/
theorem c3_computeReward_brackets (q : ℚ) :
    (Reward.computeReward q).score = max 0 (min 100 (Reward.jsRound q)) ∧
    (Reward.computeReward q).tokens =
      (if max 0 (min 100 (Reward.jsRound q)) > 80 then 5
       else if 50 ≤ max 0 (min 100 (Reward.jsRound q)) ∧
               max 0 (min 100 (Reward.jsRound q)) ≤ 80 then 3
       else 1) ∧
    (Reward.computeReward 81).tokens = 5 ∧
    (Reward.computeReward 80).tokens = 3 ∧
    (Reward.computeReward 49).tokens = 1 ∧
    (Reward.computeReward 150).tokens = 5 ∧
    (Reward.computeReward (-10)).tokens = 1 := by
  refine ⟨?_, ?_, ?_, ?_, ?_, ?_, ?_⟩
  · simp only [Reward.computeReward]
    split_ifs <;> rfl
  · simp only [Reward.computeReward]
    set s := max 0 (min 100 (Reward.jsRound q)) with hs
    split_ifs <;> first
      | rfl
      | omega
  all_goals norm_num [Reward.computeReward, Reward.jsRound]

/-- Two strings with equal character lists are equal. -/
theorem string_data_inj {a b : String} (h : a.data = b.data) : a = b := by
  cases a
  cases b
  exact congrArg String.mk h

/-- Changing exactly one of the three commitment components changes the
concatenated commitment pre-image string. -/
theorem commit_preimage_changes (E s roundId E2 s2 rid2 : String)
    (hch : (E2 ≠ E ∧ s2 = s ∧ rid2 = roundId) ∨
           (E2 = E ∧ s2 ≠ s ∧ rid2 = roundId) ∨
           (E2 = E ∧ s2 = s ∧ rid2 ≠ roundId)) :
    E2 ++ s2 ++ rid2 ≠ E ++ s ++ roundId := by
  intro h
  have hd : E2.data ++ s2.data ++ rid2.data =
      E.data ++ s.data ++ roundId.data := by
    have := congrArg String.data h
    simpa [String.data_append] using this
  rcases hch with ⟨hE, hs, hr⟩ | ⟨hE, hs, hr⟩ | ⟨hE, hs, hr⟩
  · subst hs
    subst hr
    exact hE (string_data_inj (List.append_cancel_right
      (List.append_cancel_right hd)))
  · subst hE
    subst hr
    exact hs (string_data_inj (List.append_cancel_left
      (List.append_cancel_right hd)))
  · subst hE
    subst hs
    exact hr (string_data_inj (List.append_cancel_left hd))

/-- C4: commit verification is a round-trip law: verifying the
disclosed values that built the commitment always succeeds bit for
bit; and when exactly one of the entropy digest, the secret, or the
round id is changed, the commitment pre-image string changes, so
verification fails whenever the two distinct pre-images do not collide
under SHA-256. -/
theorem c4_commit_verification (E s roundId E2 s2 rid2 : String)
    (hch : (E2 ≠ E ∧ s2 = s ∧ rid2 = roundId) ∨
           (E2 = E ∧ s2 ≠ s ∧ rid2 = roundId) ∨
           (E2 = E ∧ s2 = s ∧ rid2 ≠ roundId)) :
    Index.verifyCommit (Index.commitOf E s roundId) E s roundId = true ∧
    E2 ++ s2 ++ rid2 ≠ E ++ s ++ roundId ∧
    ((sha256Str (E2 ++ s2 ++ rid2) = sha256Str (E ++ s ++ roundId) →
        E2 ++ s2 ++ rid2 = E ++ s ++ roundId) →
      Index.verifyCommit (Index.commitOf E s roundId) E2 s2 rid2 = false) := by
  have hne : E2 ++ s2 ++ rid2 ≠ E ++ s ++ roundId :=
    commit_preimage_changes E s roundId E2 s2 rid2 hch
  refine ⟨?_, hne, ?_⟩
  · simp [Index.verifyCommit, Index.commitOf]
  · intro hcoll
    simp only [Index.verifyCommit, Index.commitOf, beq_eq_false_iff_ne, ne_eq]
    intro h
    exact hne (hcoll h)

/-- C4 witness: concrete commitment over the digest aa, secret bb and
round id r1; changing the digest to ab makes verification fail, the
two concrete pre-images having distinct SHA-256 digests. -/
theorem c4_witness :
    ((("ab" : String) ≠ "aa" ∧ ("bb" : String) = "bb" ∧
        ("r1" : String) = "r1") ∨
     (("ab" : String) = "aa" ∧ ("bb" : String) ≠ "bb" ∧
        ("r1" : String) = "r1") ∨
     (("ab" : String) = "aa" ∧ ("bb" : String) = "bb" ∧
        ("r1" : String) ≠ "r1")) ∧
    (Index.verifyCommit (Index.commitOf "aa" "bb" "r1") "aa" "bb" "r1" = true ∧
     ("ab" : String) ++ "bb" ++ "r1" ≠ ("aa" : String) ++ "bb" ++ "r1" ∧
     Index.verifyCommit (Index.commitOf "aa" "bb" "r1") "ab" "bb" "r1" = false) := by
  have hch : (("ab" : String) ≠ "aa" ∧ ("bb" : String) = "bb" ∧
        ("r1" : String) = "r1") ∨
     (("ab" : String) = "aa" ∧ ("bb" : String) ≠ "bb" ∧
        ("r1" : String) = "r1") ∨
     (("ab" : String) = "aa" ∧ ("bb" : String) = "bb" ∧
        ("r1" : String) ≠ "r1") := Or.inl ⟨by decide, rfl, rfl⟩
  have h := c4_commit_verification "aa" "bb" "r1" "ab" "bb" "r1" hch
  exact ⟨hch, h.1, h.2.1, h.2.2 (fun hc => absurd hc (by decide))⟩

/-- C1: with the actual exports of utils/hash.js (which has no sha512),
runRound throws a TypeError at the entropy-digest step for every
combination of collector buffers, round metadata, secret, and shuffle
randomness: it never verifies a commitment, never aborts through the
failed-verification branch, and never returns a round record, so in
particular no record with awarded tokens is ever produced. -/
theorem c1_runRound_always_throws (mouseBuf keyboardBuf cpuBuf cryptoBuf : List Nat)
    (roundId prevRoundHash sSecret : String) (draw : Nat → Nat) :
    Index.runRound mouseBuf keyboardBuf cpuBuf cryptoBuf
        roundId prevRoundHash sSecret draw =
      .error "TypeError: hashUtils.sha512 is not a function" := rfl

/-- A completed repetition loop bounds every final frequency: when the
loop over the whole buffer never fired, each byte value either does not
occur or its accumulated count stays at or below the threshold. -/
theorem repLoop_false_counts (l : List Nat) :
    ∀ (th : ℚ) (counts : Nat → Nat), Detector.repLoop th counts l = false →
      ∀ v, l.count v = 0 ∨ ((counts v + l.count v : Nat) : ℚ) ≤ th := by
  induction l with
  | nil =>
      intro th counts _ v
      left
      simp
  | cons b rest ih =>
      intro th counts h v
      simp only [Detector.repLoop] at h
      by_cases hgt : ((counts b + 1 : Nat) : ℚ) > th
      · rw [if_pos hgt] at h
        exact absurd h (by simp)
      · rw [if_neg hgt] at h
        have ih2 := ih th _ h
        by_cases hv : v = b
        · subst hv
          rcases ih2 v with h0 | hle
          · right
            rw [List.count_cons_self, h0]
            push_cast
            push_cast at hgt
            linarith [not_lt.mp hgt]
          · right
            rw [List.count_cons_self]
            simp only [if_pos rfl] at hle
            push_cast at hle ⊢
            linarith
        · rcases ih2 v with h0 | hle
          · left
            rw [List.count_cons_of_ne hv]
            exact h0
          · right
            rw [List.count_cons_of_ne hv]
            simpa [hv] using hle

/-- C6: whenever some byte value fills strictly more than half of a
buffer, detectCheating flags the buffer through the repetition check,
before and regardless of the similarity and entropy checks, and the
reason contains the word repeated. -/
theorem c6_repetition_first (buf : List Nat) (v : Nat)
    (prev : Option (List Nat))
    (h : ((buf.count v : Nat) : ℚ) > (buf.length : ℚ) * (1 / 2)) :
    Detector.detectCheating buf prev = ⟨true, some Detector.repeatedMsg⟩ ∧
    ∃ pre post, Detector.repeatedMsg = pre ++ "repeated" ++ post := by
  have htrig : Detector.repTriggered buf = true := by
    by_contra hf
    have hf2 : Detector.repTriggered buf = false := by
      simpa using hf
    have hcts := repLoop_false_counts buf _ _ hf2 v
    rcases hcts with h0 | hle
    · rw [h0] at h
      have hnn : (0 : ℚ) ≤ (buf.length : ℚ) * (1 / 2) := by positivity
      push_cast at h
      linarith
    · push_cast at hle h
      linarith
  refine ⟨?_, "Too many ", " values (low randomness)", by decide⟩
  simp [Detector.detectCheating, htrig]

/-- C6 witness: the 1000-byte buffer with 600 bytes of value 0x41 is
flagged by the repetition check with the repeated-values reason. -/
theorem c6_witness :
    (((List.replicate 600 65 ++ List.replicate 400 0).count 65 : Nat) : ℚ) >
      (((List.replicate 600 65 ++ List.replicate 400 0).length : Nat) : ℚ) * (1 / 2) ∧
    (Detector.detectCheating (List.replicate 600 65 ++ List.replicate 400 0)
        none = ⟨true, some Detector.repeatedMsg⟩ ∧
      ∃ pre post, Detector.repeatedMsg = pre ++ "repeated" ++ post) := by
  have hc : (((List.replicate 600 65 ++ List.replicate 400 0).count 65 : Nat) : ℚ) >
      (((List.replicate 600 65 ++ List.replicate 400 0).length : Nat) : ℚ) * (1 / 2) := by
    rw [List.count_append, List.length_append, List.count_replicate,
      List.count_replicate, List.length_replicate, List.length_replicate]
    norm_num
  exact ⟨hc, c6_repetition_first _ 65 none hc⟩

/-- C7: a contribution set that normalizes to no contributions (an
empty array, or only null and undefined entries, or a single null
value) yields the zero score, category Low, and all four sub-scores
zero, without reaching any fallible conversion. -/
theorem c7_empty_input_zero (inp : Scoring.UInput) (opts : Scoring.UOptions)
    (h : Scoring.normInputs inp = []) :
    Scoring.computeUniquenessScore inp opts =
      .ok ⟨0, "Low", ⟨0, 0, 0, 0⟩⟩ := by
  simp [Scoring.computeUniquenessScore, h]

/-- C7 witness: the empty contribution array with the default options. -/
theorem c7_witness :
    Scoring.normInputs (.arrIn []) = [] ∧
    Scoring.computeUniquenessScore (.arrIn []) Scoring.defaultUOptions =
      .ok ⟨0, "Low", ⟨0, 0, 0, 0⟩⟩ :=
  ⟨rfl, c7_empty_input_zero (.arrIn []) Scoring.defaultUOptions rfl⟩

/-- C10: on an empty buffer, with or without a previous-round buffer,
detectCheating returns normally: the repetition loop never fires, the
similarity percentage of an empty overlap fails the 85 test exactly
like the JS NaN does, the Shannon entropy evaluates to zero, which is
under the 4.0 floor, and the buffer is flagged with the entropy-too-low
reason 0.00. -/
theorem c10_empty_buffer_low_entropy (prev : Option (List Nat)) :
    Detector.detectCheating [] prev =
      ⟨true, some (Detector.entropyLowMsg (Detector.calculateEntropy []))⟩ ∧
    Detector.calculateEntropy [] = 0 ∧
    Detector.entropyLowMsg (Detector.calculateEntropy []) =
      "Entropy too low (0.00)" ∧
    ∃ pre post, Detector.entropyLowMsg (Detector.calculateEntropy []) =
      pre ++ "Entropy too low" ++ post := by
  have h0 : Detector.calculateEntropy [] = 0 := by
    simp [Detector.calculateEntropy]
  have hfl : (Int.floor ((0 : ℝ) * 100 + 1 / 2)) = 0 := by
    norm_num
  have hfix : Detector.realToFixed2 0 = "0.00" := by
    unfold Detector.realToFixed2
    rw [hfl]
    decide
  have hmsg : Detector.entropyLowMsg (Detector.calculateEntropy []) =
      "Entropy too low (0.00)" := by
    rw [h0]
    unfold Detector.entropyLowMsg
    rw [hfix]
    decide
  refine ⟨?_, h0, hmsg, "", " (0.00)", by rw [hmsg]; decide⟩
  cases prev with
  | none =>
      simp [Detector.detectCheating, Detector.repTriggered, Detector.repLoop,
        Detector.entropyStage, h0]
  | some p =>
      simp [Detector.detectCheating, Detector.repTriggered, Detector.repLoop,
        Detector.entropyStage, Detector.bufferSimilarity, h0]

/-- Is the JavaScript value an actual number: typeof gives number and
the value is not NaN. -/
def isNumberVal : JSVal → Bool
  | .num _ => true
  | _ => false

/-- Is the JavaScript value a non-empty string. -/
def validMinerId : JSVal → Bool
  | .str s => s.length != 0
  | _ => false

/-- Is the JavaScript value a (non-null) object. -/
def isObjectVal : JSVal → Bool
  | .obj _ => true
  | _ => false

/-- C8 (amended): the three function boundaries reject invalid input
with a TypeError: computeReward for every value that is not an actual
number, awardTokensToBalance for every minerId that is not a non-empty
string and, when the minerId is valid, for every balances value that is
neither an object nor undefined (an undefined balances selects the
default empty ledger instead of throwing), and mixRandomness for every
inputs value that is not an array. -/
theorem c8_boundary_rejection :
    (∀ v : JSVal, isNumberVal v = false →
      Reward.computeRewardJS v =
        .error "computeReward: score must be a valid number") ∧
    (∀ mid bal sc : JSVal, validMinerId mid = false →
      Reward.awardTokensToBalance mid bal sc =
        .error "awardTokensToBalance: minerId must be a non-empty string") ∧
    (∀ mid bal sc : JSVal, validMinerId mid = true → bal ≠ .undef →
      isObjectVal bal = false →
      Reward.awardTokensToBalance mid bal sc =
        .error "awardTokensToBalance: balances must be an object (or omitted)") ∧
    (∀ (v : JSVal) (opts : Mixer.MixOpts) (draw : Nat → Nat),
      Mixer.mixRandomness (.notArray v) opts draw =
        .error "inputs must be an array of Buffers or strings") := by
  refine ⟨?_, ?_, ?_, ?_⟩
  · intro v hv
    cases v <;> simp_all [isNumberVal, Reward.computeRewardJS]
  · intro mid bal sc h
    cases mid <;>
      simp_all [validMinerId, Reward.awardTokensToBalance]
  · intro mid bal sc hmid hbu hbo
    cases mid <;> simp_all [validMinerId]
    cases bal <;> simp_all [isObjectVal, Reward.awardTokensToBalance]
  · intro v opts draw
    rfl

/-- C8 witness: concrete rejected inputs for each boundary: NaN as a
score, a numeric miner id, a null balances object, and a string passed
to the mixer as its inputs array. -/
theorem c8_witness :
    (isNumberVal .nan = false ∧
      Reward.computeRewardJS .nan =
        .error "computeReward: score must be a valid number") ∧
    (validMinerId (.num 3) = false ∧
      Reward.awardTokensToBalance (.num 3) (.obj []) (.num 50) =
        .error "awardTokensToBalance: minerId must be a non-empty string") ∧
    (validMinerId (.str "m") = true ∧ (JSVal.nullV ≠ .undef) ∧
      isObjectVal .nullV = false ∧
      Reward.awardTokensToBalance (.str "m") .nullV (.num 50) =
        .error "awardTokensToBalance: balances must be an object (or omitted)") ∧
    Mixer.mixRandomness (.notArray (.str "x")) Mixer.defaultOpts (fun _ => 0) =
      .error "inputs must be an array of Buffers or strings" :=
  ⟨⟨rfl, c8_boundary_rejection.1 .nan rfl⟩,
   ⟨rfl, c8_boundary_rejection.2.1 (.num 3) (.obj []) (.num 50) rfl⟩,
   ⟨rfl, by decide, rfl,
     c8_boundary_rejection.2.2.1 (.str "m") .nullV (.num 50) rfl (by decide) rfl⟩,
   c8_boundary_rejection.2.2.2 (.str "x") Mixer.defaultOpts (fun _ => 0)⟩

/-- C8 counterexample: an explicitly passed undefined balances value is
not an object, yet awardTokensToBalance does not throw: the JS default
parameter substitutes the empty ledger and the call succeeds, so the
claim that every non-object balances value is rejected is false. -/
theorem c8_counterexample :
    Reward.awardTokensToBalance (.str "m") .undef (.num 50) =
      .ok ⟨[("m", 3)], 3,
        ⟨50, 3, "Medium Entropy",
         "Score between 50 and 80: medium reward bracket"⟩⟩ := by
  have hcr : Reward.computeReward 50 =
      ⟨50, 3, "Medium Entropy",
       "Score between 50 and 80: medium reward bracket"⟩ := by
    norm_num [Reward.computeReward, Reward.jsRound]
  simp [Reward.awardTokensToBalance, Reward.computeRewardJS, hcr,
    Reward.setKey, List.lookup]
  decide

/-- First-key lookup after a setKey on the same key gives the new
value. -/
theorem lookup_setKey_self (m : List (String × ℚ)) (k : String) (v : ℚ) :
    List.lookup k (Reward.setKey m k v) = some v := by
  induction m with
  | nil => simp [Reward.setKey, List.lookup]
  | cons kv rest ih =>
      obtain ⟨k0, v0⟩ := kv
      by_cases hk : k0 = k
      · subst hk
        simp [Reward.setKey, List.lookup]
      · have hb : (k == k0) = false := beq_eq_false_iff_ne.mpr (Ne.symm hk)
        simp [Reward.setKey, hk, List.lookup, ih, hb]

/-- Lookup of a different key is unchanged by setKey. -/
theorem lookup_setKey_other (m : List (String × ℚ)) (k k2 : String) (v : ℚ)
    (h : k2 ≠ k) :
    List.lookup k2 (Reward.setKey m k v) = List.lookup k2 m := by
  induction m with
  | nil =>
      have hb : (k2 == k) = false := beq_eq_false_iff_ne.mpr h
      simp [Reward.setKey, List.lookup, hb]
  | cons kv rest ih =>
      obtain ⟨k0, v0⟩ := kv
      by_cases hk : k0 = k
      · subst hk
        have hb : (k2 == k0) = false := beq_eq_false_iff_ne.mpr h
        simp [Reward.setKey, List.lookup, hb]
      · by_cases hk2 : k2 = k0
        · subst hk2
          simp [Reward.setKey, hk, List.lookup]
        · have hb : (k2 == k0) = false := beq_eq_false_iff_ne.mpr hk2
          simp [Reward.setKey, hk, List.lookup, hb, ih]

/-- C9: for a balances map, a non-empty miner id, and an actual numeric
score, awarding returns a fresh snapshot (the input map value itself is
never modified, the update happening on a copy) in which the miner
holds the previous balance, zero when absent, plus the awarded tokens,
every other key reads exactly as in the input map, and the awarded
count is the computeReward token count. -/
theorem c9_award_snapshot (m : List (String × ℚ)) (mid : String) (q : ℚ)
    (hmid : mid ≠ "") :
    ∃ res : Reward.AwardResult,
      Reward.awardTokensToBalance (.str mid) (.obj m) (.num q) = .ok res ∧
      res.awarded = (Reward.computeReward q).tokens ∧
      res.meta = Reward.computeReward q ∧
      List.lookup mid res.updatedBalances =
        some ((List.lookup mid m).getD 0 +
          ((Reward.computeReward q).tokens : ℚ)) ∧
      ∀ k, k ≠ mid →
        List.lookup k res.updatedBalances = List.lookup k m := by
  have hlen : ¬ mid.length = 0 := by
    intro hl
    apply hmid
    apply string_data_inj
    have hd : mid.data.length = 0 := hl
    simpa using List.length_eq_zero.mp hd
  refine ⟨⟨Reward.setKey m mid ((List.lookup mid m).getD 0 +
      ((Reward.computeReward q).tokens : ℚ)),
      (Reward.computeReward q).tokens, Reward.computeReward q⟩,
    ?_, rfl, rfl, lookup_setKey_self m mid _, ?_⟩
  · simp only [Reward.awardTokensToBalance, Reward.computeRewardJS]
    rw [if_neg hlen]
    cases hl : List.lookup mid m <;> simp [hl]
  · intro k hk
    exact lookup_setKey_other m mid k _ hk

/-- C9 witness: awarding score 90 to miner bob over a ledger holding
only alice gives bob five tokens and leaves alice unchanged. -/
theorem c9_witness :
    ("bob" : String) ≠ "" ∧
    ∃ res : Reward.AwardResult,
      Reward.awardTokensToBalance (.str "bob") (.obj [("alice", 2)])
          (.num 90) = .ok res ∧
      res.awarded = (Reward.computeReward 90).tokens ∧
      res.meta = Reward.computeReward 90 ∧
      List.lookup "bob" res.updatedBalances =
        some ((List.lookup "bob" [("alice", (2 : ℚ))]).getD 0 +
          ((Reward.computeReward 90).tokens : ℚ)) ∧
      ∀ k, k ≠ "bob" →
        List.lookup k res.updatedBalances =
          List.lookup k [("alice", (2 : ℚ))] :=
  ⟨by decide, c9_award_snapshot [("alice", 2)] "bob" 90 (by decide)⟩

end FLUQ
